import Mathlib

/-!
# Change-stream to FCM relay (main.go)

A shallow embedding of the three pieces of `main.go` that carry behaviour:

* the `POST /add` handler (lines 166-195),
* the relay goroutine that drains the change stream (lines 202-229),
* `sendToToken` (lines 123-145).

Calls into libraries (fiber's `BodyParser`, the driver's `InsertOne`, `Watch`
and `Next`, `bson.MarshalExtJSON`, `json.Unmarshal`, `app.Messaging`,
`client.Send`) are either taken as parameters of the environment the code runs
in, or embedded on value trees.  Strings are Unicode text; the byte-level JSON
text between `MarshalExtJSON` and `json.Unmarshal` is represented by its parse
tree.  Writes to stdout/stderr other than the success line are not recorded.
-/

namespace ChangeStreamFCM

/-! ## Data model (lines 71-96) -/

/-- A `primitive.ObjectID`, carried by its hexadecimal rendering. -/
structure ObjectID where
  hex : String
deriving DecidableEq, Repr

/-- The struct `Notification` (lines 72-76). It has `json` tags only. -/
structure Notification where
  id : ObjectID
  title : String
  content : String
deriving DecidableEq, Repr

/-- The struct `NotificationPayload` (lines 79-82). -/
structure NotificationPayload where
  title : String
  content : String
deriving DecidableEq, Repr

/-- The struct `Notif` (lines 89-92). -/
structure Notif where
  title : String
  content : String
deriving DecidableEq, Repr

/-- The struct `FullDocument` (lines 84-86). -/
structure FullDocument where
  fullDocument : Notif
deriving DecidableEq, Repr

/-! ## BSON documents and their extended-JSON rendering -/

/-- BSON values, as far as they occur in stored records and change events. -/
inductive BVal where
  | string (s : String)
  | document (fields : List (String × BVal))
  | array (items : List BVal)
  | objectID (id : ObjectID)
  | boolean (b : Bool)
  | null
  | int32 (n : Int)
  | int64 (n : Int)
  | dateTime (millis : Int)
  | timestamp (t : Nat) (i : Nat)
deriving Repr

/-- A BSON document: its elements in order. -/
abbrev BDoc := List (String × BVal)

/-- The parse tree of a JSON text. -/
inductive JVal where
  | null
  | bool (b : Bool)
  | num (n : Int)
  | str (s : String)
  | arr (items : List JVal)
  | obj (fields : List (String × JVal))
deriving Repr

/-- A number in decimal, filled with zeros on the left up to `width` digits. -/
def padLeft (width n : Nat) : String :=
  let s := toString n
  String.mk (List.replicate (width - s.length) '0') ++ s

/-- Year, month and day of the day that lies `days` days after 1970-01-01. -/
def civilFromDays (days : Nat) : Nat × Nat × Nat :=
  let z := days + 719468
  let era := z / 146097
  let doe := z % 146097
  let yoe := (doe - doe / 1460 + doe / 36524 - doe / 146096) / 365
  let doy := doe - (365 * yoe + yoe / 4 - yoe / 100)
  let mp := (5 * doy + 2) / 153
  let d := doy - (153 * mp + 2) / 5 + 1
  let m := if mp < 10 then mp + 3 else mp - 9
  let y := yoe + era * 400
  (if m ≤ 2 then y + 1 else y, m, d)

/-- The fraction of a second in Go's layout `.999`: up to three digits,
trailing zeros dropped, nothing at all for zero. -/
def secondFraction (ms : Nat) : String :=
  if ms = 0 then ""
  else if ms % 100 = 0 then "." ++ toString (ms / 100)
  else if ms % 10 = 0 then "." ++ padLeft 2 (ms / 10)
  else "." ++ padLeft 3 ms

/-- The UTC time `millis` milliseconds after the epoch in the layout
`2006-01-02T15:04:05.999Z07:00` the driver formats dates with. -/
def rfc3339Milli (millis : Nat) : String :=
  let (y, m, d) := civilFromDays (millis / 86400000)
  let rest := millis % 86400000
  padLeft 4 y ++ "-" ++ padLeft 2 m ++ "-" ++ padLeft 2 d ++ "T" ++
    padLeft 2 (rest / 3600000) ++ ":" ++ padLeft 2 (rest / 60000 % 60) ++ ":" ++
    padLeft 2 (rest / 1000 % 60) ++ secondFraction (rest % 1000) ++ "Z"

mutual
/-- Relaxed extended JSON of one BSON value (`bson.MarshalExtJSON` with
`canonical = false`): strings, documents, arrays, booleans, null and the
integer types map to the JSON value of the same kind; every other type is
wrapped in an object with a `$`-key.  A date of the years 1970 to 9999 is
written as its ISO-8601 string, any other date in the `$numberLong` form. -/
def extJSONValue : BVal → JVal
  | .string s => .str s
  | .document fields => .obj (extJSONFields fields)
  | .array items => .arr (extJSONItems items)
  | .objectID id => .obj [("$oid", .str id.hex)]
  | .boolean b => .bool b
  | .null => .null
  | .int32 n => .num n
  | .int64 n => .num n
  | .dateTime millis =>
    if 0 ≤ millis ∧ millis < 253402300800000 then
      .obj [("$date", .str (rfc3339Milli millis.toNat))]
    else .obj [("$date", .obj [("$numberLong", .str (toString millis))])]
  | .timestamp t i => .obj [("$timestamp", .obj [("t", .num t), ("i", .num i)])]
/-- Relaxed extended JSON of the elements of a document, keys kept in order. -/
def extJSONFields : List (String × BVal) → List (String × JVal)
  | [] => []
  | (k, v) :: rest => (k, extJSONValue v) :: extJSONFields rest
/-- Relaxed extended JSON of the items of an array. -/
def extJSONItems : List BVal → List JVal
  | [] => []
  | v :: rest => extJSONValue v :: extJSONItems rest
end

/-- The call `bson.MarshalExtJSON(change, false, false)` of line 207 on a
well-formed document: it always yields the JSON object of the document. -/
def marshalExtJSON (change : BDoc) : Except String JVal :=
  .ok (.obj (extJSONFields change))

/-! ## `json.Unmarshal` into `FullDocument` -/

/-- What `json.Unmarshal` reports when a JSON value does not fit the Go field:
the kind of the JSON value and the field it was meant for. -/
structure UnmarshalTypeError where
  value : String
  field : String
deriving DecidableEq, Repr

/-- Key matching of `encoding/json` for a field whose name is made of ASCII
letters other than `k` and `s` (`title`, `content`, `fullDocument`): the key
matches when it equals the name up to ASCII letter case. -/
def equalFold (key name : String) : Bool :=
  key.data.map Char.toLower == name.data.map Char.toLower

/-- Decoding one JSON value into a Go `string` field holding `cur`: a JSON
string is stored, `null` leaves the field alone, anything else is a type
error. -/
def unmarshalString (field : String) (cur : String) : JVal → Except UnmarshalTypeError String
  | .str s => .ok s
  | .null => .ok cur
  | .bool _ => .error ⟨"bool", field⟩
  | .num _ => .error ⟨"number", field⟩
  | .arr _ => .error ⟨"array", field⟩
  | .obj _ => .error ⟨"object", field⟩

/-- Decoding the members of a JSON object into a `Notif` holding `cur`:
members are taken in order, a later duplicate overwrites an earlier one,
members matching no field are ignored. -/
def unmarshalNotif (cur : Notif) : List (String × JVal) → Except UnmarshalTypeError Notif
  | [] => .ok cur
  | (k, v) :: rest =>
    if equalFold k "title" then
      match unmarshalString "fullDocument.title" cur.title v with
      | .error e => .error e
      | .ok t => unmarshalNotif { cur with title := t } rest
    else if equalFold k "content" then
      match unmarshalString "fullDocument.content" cur.content v with
      | .error e => .error e
      | .ok c => unmarshalNotif { cur with content := c } rest
    else unmarshalNotif cur rest

/-- Decoding one JSON value into the `Notif`-typed field `fullDocument`. -/
def unmarshalNotifValue (cur : Notif) : JVal → Except UnmarshalTypeError Notif
  | .obj fields => unmarshalNotif cur fields
  | .null => .ok cur
  | .bool _ => .error ⟨"bool", "fullDocument"⟩
  | .num _ => .error ⟨"number", "fullDocument"⟩
  | .str _ => .error ⟨"string", "fullDocument"⟩
  | .arr _ => .error ⟨"array", "fullDocument"⟩

/-- Decoding the members of the top-level JSON object into a `FullDocument`. -/
def unmarshalFullDocument (cur : FullDocument) :
    List (String × JVal) → Except UnmarshalTypeError FullDocument
  | [] => .ok cur
  | (k, v) :: rest =>
    if equalFold k "fullDocument" then
      match unmarshalNotifValue cur.fullDocument v with
      | .error e => .error e
      | .ok n => unmarshalFullDocument { fullDocument := n } rest
    else unmarshalFullDocument cur rest

/-- The call `json.Unmarshal(elementJson, &notif)` of line 215, `notif` being
the zero value declared on line 204. -/
def jsonUnmarshal : JVal → Except UnmarshalTypeError FullDocument
  | .obj fields => unmarshalFullDocument { fullDocument := { title := "", content := "" } } fields
  | .null => .ok { fullDocument := { title := "", content := "" } }
  | .bool _ => .error ⟨"bool", ""⟩
  | .num _ => .error ⟨"number", ""⟩
  | .str _ => .error ⟨"string", ""⟩
  | .arr _ => .error ⟨"array", ""⟩

/-- Why the decode step of the relay panics. -/
inductive DecodeFailure where
  | marshal (text : String)
  | unmarshal (e : UnmarshalTypeError)
deriving DecidableEq, Repr

/-- The decode step of the relay goroutine (lines 204-223): marshal the change
document to extended JSON, unmarshal it into a `FullDocument`, copy title and
content into a `NotificationPayload`.  An error is what the goroutine panics
with. -/
def decodeChange (change : BDoc) : Except DecodeFailure NotificationPayload :=
  match marshalExtJSON change with
  | .error err => .error (.marshal err)
  | .ok elementJson =>
    match jsonUnmarshal elementJson with
    | .error err => .error (.unmarshal err)
    | .ok notif =>
      .ok { title := notif.fullDocument.title, content := notif.fullDocument.content }

/-! ## `sendToToken` (lines 123-145) -/

/-- The struct `messaging.Notification`, with the two fields the code sets. -/
structure FcmNotification where
  title : String
  body : String
deriving DecidableEq, Repr

/-- The struct `messaging.Message`, with the two fields the code sets. -/
structure Message where
  notification : FcmNotification
  token : String
deriving DecidableEq, Repr

/-- The two classes of provider failure the specification distinguishes. -/
inductive FailureClass where
  | retryable
  | permanent
deriving DecidableEq, Repr

/-- An error returned by `client.Send`. -/
structure SendError where
  cls : FailureClass
  text : String
deriving DecidableEq, Repr

/-- What the relay runs against: the environment variable
`Registration_Token`, the result of the k-th call of `app.Messaging` and the
result of the k-th call of `client.Send` (k counted from 0).  One call of
`client.Send` is one entry: what it returns to `sendToToken` after whatever
HTTP requests and retries the client library makes inside that call. -/
structure World where
  registrationToken : String
  messaging : Nat → Except String Unit
  send : Nat → Message → Except SendError String

/-- What the relay has done so far: how often it asked for a messaging
client, the messages it handed to `client.Send`, in order, and the lines it
printed. -/
structure RelayState where
  clientCalls : Nat
  sent : List Message
  stdout : List String
deriving DecidableEq, Repr

/-- The state of a freshly started process. -/
def RelayState.init : RelayState :=
  { clientCalls := 0, sent := [], stdout := [] }

/-- How a call ends: it returns, or the process ends with an exit status
(`log.Fatal*` ends it with status 1). -/
inductive CallEnd where
  | returned
  | exited (status : Nat)
deriving DecidableEq, Repr

/-- The message built on lines 132-138. -/
def buildMessage (w : World) (msg : NotificationPayload) : Message :=
  { notification := { title := msg.title, body := msg.content },
    token := w.registrationToken }

/-- The function `sendToToken` (lines 123-145). -/
def sendToToken (w : World) (s : RelayState) (msg : NotificationPayload) :
    CallEnd × RelayState :=
  match w.messaging s.clientCalls with
  | .error _ => (.exited 1, { s with clientCalls := s.clientCalls + 1 })
  | .ok _ =>
    let message := buildMessage w msg
    match w.send s.sent.length message with
    | .error _ =>
      (.exited 1, { s with clientCalls := s.clientCalls + 1, sent := s.sent ++ [message] })
    | .ok response =>
      (.returned, { clientCalls := s.clientCalls + 1,
                    sent := s.sent ++ [message],
                    stdout := s.stdout ++ ["Successfully sent message: " ++ response] })

/-! ## The relay goroutine (lines 202-229) -/

/-- One result of `changeStream.Next` as the loop sees it: `true` with the
current change document, or `false` (the stream gave up on an error, or
was closed). -/
inductive NextResult where
  | event (change : BDoc)
  | closed
deriving Repr

/-- Where the relay stands once the given results of `Next` are used up. -/
inductive RelayStatus where
  -- blocked in `Next`, waiting for the next change
  | waiting
  -- the `for` loop has ended and the goroutine returned; the process lives on
  | finished
  -- the process has ended through `log.Fatal*`
  | exited (status : Nat)
  -- the goroutine panicked, which ends the process
  | panicked (why : DecodeFailure)
deriving DecidableEq, Repr

/-- The relay goroutine (lines 202-229), run on the successive results of
`changeStream.Next`. -/
def relayLoop (w : World) : List NextResult → RelayState → RelayStatus × RelayState
  | [], s => (.waiting, s)
  | .closed :: _, s => (.finished, s)
  | .event change :: rest, s =>
    match decodeChange change with
    | .error err => (.panicked err, s)
    | .ok newNotif =>
      match sendToToken w s newNotif with
      | (.returned, s') => relayLoop w rest s'
      | (.exited status, s') => (.exited status, s')

/-- The feed on which `Next` only ever returns changes. -/
def changes (docs : List BDoc) : List NextResult :=
  docs.map NextResult.event

/-! ## The `POST /add` handler (lines 166-195) -/

/-- An incoming request, as far as `BodyParser` looks at it. -/
structure Request where
  contentType : String
  body : String
deriving DecidableEq, Repr

/-- The struct `mongo.InsertOneResult`. -/
structure InsertOneResult where
  insertedID : ObjectID
deriving DecidableEq, Repr

/-- What the handler runs against: the result of `c.BodyParser(&input)` (an
error text, or the input it filled in), the identifier returned by
`primitive.NewObjectID()`, and the result of `InsertOne` on a record. -/
structure Ingestion where
  bodyParser : Request → Except String NotificationPayload
  newObjectID : ObjectID
  insertOne : Notification → Except String InsertOneResult

/-- The value under the key `data` of the response body. -/
inductive ResponseData where
  | message (text : String)
  | result (r : InsertOneResult)
deriving DecidableEq, Repr

/-- The `fiber.Map` written by the handler: the keys `status` and `data`. -/
structure ResponseBody where
  status : Nat
  data : ResponseData
deriving DecidableEq, Repr

/-- The HTTP response: status code and JSON body. -/
structure Response where
  status : Nat
  body : ResponseBody
deriving DecidableEq, Repr

/-- What one request did: the response it got and the records handed to
`InsertOne`, in order. -/
structure HandlerResult where
  response : Response
  inserts : List Notification
deriving DecidableEq, Repr

/-- The record built on lines 180-184. -/
def newNotification (id : ObjectID) (input : NotificationPayload) : Notification :=
  { id := id, title := input.title, content := input.content }

/-- The handler of `POST /add` (lines 166-195). -/
def addHandler (h : Ingestion) (req : Request) : HandlerResult :=
  match h.bodyParser req with
  | .error err =>
    { response := { status := 400, body := { status := 400, data := .message err } },
      inserts := [] }
  | .ok input =>
    let record := newNotification h.newObjectID input
    match h.insertOne record with
    | .error err =>
      { response := { status := 400, body := { status := 400, data := .message err } },
        inserts := [record] }
    | .ok result =>
      { response := { status := 200, body := { status := 200, data := .result result } },
        inserts := [record] }

/-! ## From a stored record to its change event -/

/-- The BSON document the driver builds from a `Notification`: the struct has
no `bson` tags, so each element is keyed by the lower-cased field name. -/
def marshalNotification (n : Notification) : BDoc :=
  [("id", .objectID n.id), ("title", .string n.title), ("content", .string n.content)]

/-- The document `InsertOne` stores: the marshalled record has no `_id`, so the
driver puts a generated one in front. -/
def storedDocument (autoID : ObjectID) (n : Notification) : BDoc :=
  ("_id", .objectID autoID) :: marshalNotification n

/-- The parts of a change event that do not depend on the changed record. -/
structure ChangeMeta where
  resumeToken : String
  clusterT : Nat
  clusterI : Nat
  documentKey : ObjectID
deriving DecidableEq, Repr

/-- A change event of the collection `notification` of the database
`changestreamfcm` (lines 66 and 161), in the server's format: the resume token
under `_id`, the operation kind, the cluster time, the full document when the
event has one, the namespace and the document key. -/
def changeEvent (m : ChangeMeta) (operationType : String) (fullDocument : Option BDoc) : BDoc :=
  [("_id", .document [("_data", .string m.resumeToken)]),
   ("operationType", .string operationType),
   ("clusterTime", .timestamp m.clusterT m.clusterI)]
  ++ (match fullDocument with
      | some d => [("fullDocument", BVal.document d)]
      | none => [])
  ++ [("ns", .document [("db", .string "changestreamfcm"), ("coll", .string "notification")]),
      ("documentKey", .document [("_id", .objectID m.documentKey)])]

/-- One insert as the feed reports it: event metadata, the `_id` the driver
generated, and the record the handler built. -/
structure Inserted where
  info : ChangeMeta
  autoID : ObjectID
  record : Notification
deriving DecidableEq, Repr

/-- The change event of an insert made through the handler. -/
def insertEvent (e : Inserted) : BDoc :=
  changeEvent e.info "insert" (some (storedDocument e.autoID e.record))

/-- The message the relay is expected to send for an insert. -/
def messageOf (w : World) (e : Inserted) : Message :=
  { notification := { title := e.record.title, body := e.record.content },
    token := w.registrationToken }

/-- Whether the k-th dispatch of a run succeeds with message `m`:
`sendToToken` gets its messaging client and `client.Send` returns no error. -/
def sendSucceeds (w : World) (k : Nat) (m : Message) : Bool :=
  match w.messaging k, w.send k m with
  | .ok _, .ok _ => true
  | _, _ => false

/-- Whether no element of the document has a key matching `name`. -/
def lacksKey (name : String) (fields : BDoc) : Bool :=
  fields.all (fun kv => !equalFold kv.1 name)

/-- What the options of `Watch` say about where the stream starts: the
position (index in the change log) after which to resume, if any. -/
structure WatchOptions where
  resumeAfter : Option Nat
deriving DecidableEq, Repr

/-- The collection as `Watch` sees it: for a pipeline and options, an error or
the results `Next` is going to give on the stream that was opened. -/
structure Collection where
  watch : List BDoc → WatchOptions → Except String (List NextResult)

/-- How a start of the program ends up: `Watch` failed and `main` panicked
(lines 198-200), or the relay goroutine ran and stands somewhere. -/
inductive StartResult where
  | watchPanicked (err : String)
  | relay (status : RelayStatus) (state : RelayState)
deriving DecidableEq, Repr

/-- Lines 197-229 of `main`: `Watch` is called with the empty pipeline and no
options, `main` panics when it fails, and otherwise the relay goroutine runs on
the stream.  The relay starts from `RelayState.init`; the program reads no
stored position before and writes none afterwards. -/
def startRelay (w : World) (coll : Collection) : StartResult :=
  match coll.watch [] { resumeAfter := none } with
  | .error err => .watchPanicked err
  | .ok changeStream =>
    match relayLoop w changeStream RelayState.init with
    | (status, state) => .relay status state

/-- The messages a start of the program has handed to `client.Send`. -/
def StartResult.sent : StartResult → List Message
  | .watchPanicked _ => []
  | .relay _ state => state.sent

/-- A server holding the change log `log`, as one lifetime of a client sees
it: the stream is opened when the log holds `openedAt` entries, and `Next`
delivers `consumed` changes, all of which the client has dealt with when it is
stopped.  A stream opened
with a resume position carries the entries after that position; a stream
opened without one carries the entries logged after it was opened. -/
def collectionAt (log : List BDoc) (openedAt consumed : Nat) : Collection :=
  { watch := fun _ opts =>
      match opts.resumeAfter with
      | some p => .ok (changes ((log.drop (p + 1)).take consumed))
      | none => .ok (changes ((log.drop openedAt).take consumed)) }

/-! ## Concrete environments and inputs -/

/-- A provider that accepts every message. -/
def okWorld : World :=
  { registrationToken := "tok",
    messaging := fun _ => .ok (),
    send := fun _ _ => .ok "projects/p/messages/1" }

/-- A provider whose every send fails permanently. -/
def rejectingWorld : World :=
  { registrationToken := "tok",
    messaging := fun _ => .ok (),
    send := fun _ _ => .error { cls := .permanent, text := "invalid registration token" } }

/-- A provider that is rate limited on the first send and accepts every later
one. -/
def rateLimitedOnceWorld : World :=
  { registrationToken := "tok",
    messaging := fun _ => .ok (),
    send := fun k _ =>
      if k = 0 then .error { cls := .retryable, text := "quota exceeded" }
      else .ok "projects/p/messages/1" }

/-- Metadata for the sample events. -/
def sampleMeta (n : Nat) : ChangeMeta :=
  { resumeToken := "8263", clusterT := 1700000000, clusterI := n,
    documentKey := { hex := "65a000000000000000000000" } }

/-- The insert of title A, content 1. -/
def insertA : Inserted :=
  { info := sampleMeta 1, autoID := { hex := "65a000000000000000000001" },
    record := { id := { hex := "65a0000000000000000000a1" }, title := "A", content := "1" } }

/-- The insert of title B, content 2. -/
def insertB : Inserted :=
  { info := sampleMeta 2, autoID := { hex := "65a000000000000000000002" },
    record := { id := { hex := "65a0000000000000000000b2" }, title := "B", content := "2" } }

/-- The insert of title C, content 3. -/
def insertC : Inserted :=
  { info := sampleMeta 3, autoID := { hex := "65a000000000000000000003" },
    record := { id := { hex := "65a0000000000000000000c3" }, title := "C", content := "3" } }

/-- An ingestion environment in which JSON bodies parse to a fixed input and
every insert succeeds. -/
def okIngestion : Ingestion :=
  { bodyParser := fun req =>
      if req.contentType = "application/json" then .ok { title := "A", content := "1" }
      else .error "Unprocessable Entity",
    newObjectID := { hex := "65a0000000000000000000a1" },
    insertOne := fun n => .ok { insertedID := n.id } }

/-! ## Auxiliary facts -/

/-- Members of an object are decoded left to right. -/
theorem unmarshalNotif_append (cur : Notif) (a b : List (String × JVal)) :
    unmarshalNotif cur (a ++ b) =
      match unmarshalNotif cur a with
      | .error e => .error e
      | .ok n => unmarshalNotif n b := by
  induction a generalizing cur with
  | nil => simp [unmarshalNotif]
  | cons kv rest ih =>
    obtain ⟨k, v⟩ := kv
    simp only [List.cons_append, unmarshalNotif]
    split
    · cases h : unmarshalString "fullDocument.title" cur.title v with
      | error e => simp
      | ok t => simp [ih]
    · split
      · cases h : unmarshalString "fullDocument.content" cur.content v with
        | error e => simp
        | ok t => simp [ih]
      · exact ih cur

/-- Members matching neither `title` nor `content` leave a `Notif` as it is. -/
theorem unmarshalNotif_lacks (cur : Notif) (fields : BDoc)
    (ht : lacksKey "title" fields = true) (hc : lacksKey "content" fields = true) :
    unmarshalNotif cur (extJSONFields fields) = .ok cur := by
  induction fields with
  | nil => simp [extJSONFields, unmarshalNotif]
  | cons kv rest ih =>
    obtain ⟨k, v⟩ := kv
    simp only [lacksKey, List.all_cons, Bool.and_eq_true, Bool.not_eq_true'] at ht hc
    simp only [extJSONFields, unmarshalNotif, ht.1, hc.1]
    simp only [lacksKey] at ih
    simpa using ih ht.2 hc.2

/-- Decoding a change event with a full document comes down to decoding that
document into a zero `Notif`. -/
theorem decodeChange_changeEvent_some (m : ChangeMeta) (op : String) (doc : BDoc) :
    decodeChange (changeEvent m op (some doc)) =
      match unmarshalNotif { title := "", content := "" } (extJSONFields doc) with
      | .error e => .error (.unmarshal e)
      | .ok n => .ok { title := n.title, content := n.content } := by
  have h1 : equalFold "_id" "fullDocument" = false := by decide
  have h2 : equalFold "operationType" "fullDocument" = false := by decide
  have h3 : equalFold "clusterTime" "fullDocument" = false := by decide
  have h4 : equalFold "fullDocument" "fullDocument" = true := by decide
  have h5 : equalFold "ns" "fullDocument" = false := by decide
  have h6 : equalFold "documentKey" "fullDocument" = false := by decide
  simp only [decodeChange, marshalExtJSON, changeEvent, extJSONFields, extJSONValue,
    jsonUnmarshal, unmarshalFullDocument, unmarshalNotifValue, List.cons_append,
    List.nil_append, h1, h2, h3, h4, h5, h6]
  cases unmarshalNotif { title := "", content := "" } (extJSONFields doc) with
  | error e => simp
  | ok n => simp

/-- A record stored through the handler unmarshals to its title and content. -/
theorem unmarshalNotif_storedDocument (autoID : ObjectID) (n : Notification) :
    unmarshalNotif { title := "", content := "" } (extJSONFields (storedDocument autoID n)) =
      .ok { title := n.title, content := n.content } := by
  have h1 : equalFold "_id" "title" = false := by decide
  have h2 : equalFold "_id" "content" = false := by decide
  have h3 : equalFold "id" "title" = false := by decide
  have h4 : equalFold "id" "content" = false := by decide
  have h5 : equalFold "title" "title" = true := by decide
  have h6 : equalFold "content" "title" = false := by decide
  have h7 : equalFold "content" "content" = true := by decide
  simp [storedDocument, marshalNotification, extJSONFields, extJSONValue, unmarshalNotif,
    unmarshalString, h1, h2, h3, h4, h5, h6, h7]

/-- The insert event of a handler-made record decodes to its title and content. -/
theorem decodeChange_insertEvent (e : Inserted) :
    decodeChange (insertEvent e) = .ok { title := e.record.title, content := e.record.content } := by
  simp [insertEvent, decodeChange_changeEvent_some, unmarshalNotif_storedDocument]

/-- A feed whose first part leaves the relay waiting is continued from the
state reached. -/
theorem relayLoop_append_waiting (w : World) (pre rest : List NextResult) (s s1 : RelayState)
    (h : relayLoop w pre s = (.waiting, s1)) :
    relayLoop w (pre ++ rest) s = relayLoop w rest s1 := by
  induction pre generalizing s with
  | nil =>
    simp only [relayLoop, Prod.mk.injEq, true_and] at h
    simp [h]
  | cons r tl ih =>
    cases r with
    | closed => simp [relayLoop] at h
    | event change =>
      simp only [List.cons_append, relayLoop] at h ⊢
      cases hd : decodeChange change with
      | error err => simp [hd] at h
      | ok p =>
        simp only [hd] at h ⊢
        cases hs : sendToToken w s p with
        | mk e s2 =>
          cases e with
          | returned =>
            simp only [hs] at h ⊢
            exact ih s2 h
          | exited st => simp [hs] at h


/-- What a successful dispatch means for the two provider calls. -/
theorem sendSucceeds_iff (w : World) (k : Nat) (m : Message) :
    sendSucceeds w k m = true ↔ w.messaging k = .ok () ∧ ∃ r, w.send k m = .ok r := by
  unfold sendSucceeds
  cases h1 : w.messaging k with
  | error e => simp
  | ok u =>
    cases h2 : w.send k m with
    | error e => simp
    | ok r => simp

/-- The successful path of `sendToToken`. -/
theorem sendToToken_ok (w : World) (s : RelayState) (p : NotificationPayload) (r : String)
    (hcli : w.messaging s.clientCalls = .ok ())
    (hsend : w.send s.sent.length (buildMessage w p) = .ok r) :
    sendToToken w s p =
      (.returned, { clientCalls := s.clientCalls + 1, sent := s.sent ++ [buildMessage w p],
                    stdout := s.stdout ++ ["Successfully sent message: " ++ r] }) := by
  simp [sendToToken, hcli, hsend]

/-- The path of `sendToToken` on which `client.Send` returns an error. -/
theorem sendToToken_send_error (w : World) (s : RelayState) (p : NotificationPayload)
    (err : SendError)
    (hcli : w.messaging s.clientCalls = .ok ())
    (hsend : w.send s.sent.length (buildMessage w p) = .error err) :
    sendToToken w s p =
      (.exited 1, { s with clientCalls := s.clientCalls + 1,
                           sent := s.sent ++ [buildMessage w p] }) := by
  simp [sendToToken, hcli, hsend]

/-- With a messaging client, `sendToToken` calls `client.Send` once. -/
theorem sendToToken_sent (w : World) (s : RelayState) (p : NotificationPayload)
    (hcli : w.messaging s.clientCalls = .ok ()) :
    (sendToToken w s p).2.sent = s.sent ++ [buildMessage w p] := by
  cases hs : w.send s.sent.length (buildMessage w p) with
  | error e => simp [sendToToken, hcli, hs]
  | ok r => simp [sendToToken, hcli, hs]

/-- A run over insert events whose dispatches all succeed, from any state. -/
theorem relayLoop_inserts (w : World) (ins : List Inserted) (s : RelayState)
    (hok : ∀ k e, ins[k]? = some e →
      w.messaging (s.clientCalls + k) = .ok () ∧
      ∃ r, w.send (s.sent.length + k) (messageOf w e) = .ok r) :
    (relayLoop w (changes (ins.map insertEvent)) s).1 = .waiting ∧
    (relayLoop w (changes (ins.map insertEvent)) s).2.sent = s.sent ++ ins.map (messageOf w) ∧
    (relayLoop w (changes (ins.map insertEvent)) s).2.clientCalls = s.clientCalls + ins.length := by
  induction ins generalizing s with
  | nil => simp [changes, relayLoop]
  | cons e tl ih =>
    obtain ⟨hcli, r, hsend⟩ := hok 0 e (by simp)
    simp only [Nat.add_zero] at hcli hsend
    have hmsg : buildMessage w { title := e.record.title, content := e.record.content } =
        messageOf w e := rfl
    have hstep := sendToToken_ok w s { title := e.record.title, content := e.record.content } r
      hcli (by rw [hmsg]; exact hsend)
    simp only [changes, List.map_cons, relayLoop, decodeChange_insertEvent, hstep, hmsg]
    have ih2 := ih { clientCalls := s.clientCalls + 1, sent := s.sent ++ [messageOf w e],
                     stdout := s.stdout ++ ["Successfully sent message: " ++ r] } (by
      intro k e2 hk
      have := hok (k + 1) e2 (by simpa using hk)
      simpa [Nat.add_assoc, Nat.add_comm 1 k] using this)
    simp only [changes] at ih2
    refine ⟨ih2.1, ?_, ?_⟩
    · rw [ih2.2.1]; simp
    · rw [ih2.2.2]; simp; omega

/-- C1. For every finite sequence of insert events delivered by the feed, when
the provider send for each of them succeeds, the relay loop ends up waiting
for the next event having made exactly one send call per event, in feed
order, the i-th call carrying the title and content of the i-th record and
the configured registration token. -/
theorem relay_sends_each_insert_in_order (w : World) (ins : List Inserted)
    (hok : ∀ k e, ins[k]? = some e → sendSucceeds w k (messageOf w e) = true) :
    (relayLoop w (changes (ins.map insertEvent)) RelayState.init).1 = .waiting ∧
    (relayLoop w (changes (ins.map insertEvent)) RelayState.init).2.sent =
      ins.map (fun e => { notification := { title := e.record.title, body := e.record.content },
                          token := w.registrationToken }) ∧
    (relayLoop w (changes (ins.map insertEvent)) RelayState.init).2.sent.length = ins.length := by
  have h := relayLoop_inserts w ins RelayState.init (by
    intro k e hk
    have := (sendSucceeds_iff w k (messageOf w e)).1 (hok k e hk)
    simpa [RelayState.init] using this)
  refine ⟨h.1, ?_, ?_⟩
  · rw [h.2.1]; simp [RelayState.init, messageOf]
  · rw [h.2.1]; simp [RelayState.init]

/-- C1 at the feed of the inserts A and B with a provider that accepts all. -/
theorem relay_sends_each_insert_in_order_witness :
    (relayLoop okWorld (changes ([insertA, insertB].map insertEvent)) RelayState.init).1 = .waiting ∧
    (relayLoop okWorld (changes ([insertA, insertB].map insertEvent)) RelayState.init).2.sent =
      [insertA, insertB].map (fun e =>
        { notification := { title := e.record.title, body := e.record.content },
          token := okWorld.registrationToken }) ∧
    (relayLoop okWorld (changes ([insertA, insertB].map insertEvent)) RelayState.init).2.sent.length
      = [insertA, insertB].length :=
  relay_sends_each_insert_in_order okWorld [insertA, insertB] (by intro k e _; rfl)


/-- The relay on a feed in which the send for one change returns an error. -/
theorem relayLoop_reaches_send_error (w : World) (pre post : List NextResult) (change : BDoc)
    (s1 : RelayState) (p : NotificationPayload) (err : SendError)
    (hpre : relayLoop w pre RelayState.init = (.waiting, s1))
    (hdec : decodeChange change = .ok p)
    (hcli : w.messaging s1.clientCalls = .ok ())
    (hsend : w.send s1.sent.length (buildMessage w p) = .error err) :
    relayLoop w (pre ++ .event change :: post) RelayState.init =
      (.exited 1, { clientCalls := s1.clientCalls + 1, sent := s1.sent ++ [buildMessage w p],
                    stdout := s1.stdout }) := by
  rw [relayLoop_append_waiting w pre _ _ s1 hpre]
  simp [relayLoop, hdec, sendToToken, hcli, hsend]

/-- C2, refuted: with a provider that rejects the send for A, the process
exits with status 1 after that call and B, the later event of the feed, is
never dispatched. -/
theorem delivery_failure_ends_process :
    relayLoop rejectingWorld (changes [insertEvent insertA, insertEvent insertB]) RelayState.init =
      (.exited 1, { clientCalls := 1, sent := [messageOf rejectingWorld insertA], stdout := [] }) := by
  rfl

/-- C2 as amended. A delivery failure is fatal: when the provider send for an
event returns an error, the process exits with status 1 right after that one
send call, and the later events of the feed have no effect at all (they are
neither decoded nor dispatched). -/
theorem send_error_is_fatal (w : World) (pre post : List NextResult) (change : BDoc)
    (s1 : RelayState) (p : NotificationPayload) (err : SendError)
    (hpre : relayLoop w pre RelayState.init = (.waiting, s1))
    (hdec : decodeChange change = .ok p)
    (hcli : w.messaging s1.clientCalls = .ok ())
    (hsend : w.send s1.sent.length (buildMessage w p) = .error err) :
    (relayLoop w (pre ++ .event change :: post) RelayState.init).1 = .exited 1 ∧
    relayLoop w (pre ++ .event change :: post) RelayState.init =
      relayLoop w (pre ++ [.event change]) RelayState.init ∧
    (relayLoop w (pre ++ .event change :: post) RelayState.init).2.sent =
      s1.sent ++ [buildMessage w p] := by
  rw [relayLoop_reaches_send_error w pre post change s1 p err hpre hdec hcli hsend,
    relayLoop_reaches_send_error w pre [] change s1 p err hpre hdec hcli hsend]
  simp

/-- C2 as amended, at the feed A, B with a provider that rejects every send. -/
theorem send_error_is_fatal_witness :
    (relayLoop rejectingWorld ([] ++ .event (insertEvent insertA) :: [.event (insertEvent insertB)])
        RelayState.init).1 = .exited 1 ∧
    relayLoop rejectingWorld ([] ++ .event (insertEvent insertA) :: [.event (insertEvent insertB)])
        RelayState.init =
      relayLoop rejectingWorld ([] ++ [.event (insertEvent insertA)]) RelayState.init ∧
    (relayLoop rejectingWorld ([] ++ .event (insertEvent insertA) :: [.event (insertEvent insertB)])
        RelayState.init).2.sent =
      RelayState.init.sent ++ [buildMessage rejectingWorld { title := "A", content := "1" }] :=
  send_error_is_fatal rejectingWorld [] [.event (insertEvent insertB)] (insertEvent insertA)
    RelayState.init { title := "A", content := "1" }
    { cls := .permanent, text := "invalid registration token" } rfl rfl rfl rfl

/-- C4, refuted: the provider is rate limited on the first call and would
accept the second, yet the relay makes one send call for A and the process
exits with status 1. -/
theorem rate_limited_send_is_not_retried :
    rateLimitedOnceWorld.send 0 (messageOf rateLimitedOnceWorld insertA) =
      .error { cls := .retryable, text := "quota exceeded" } ∧
    rateLimitedOnceWorld.send 1 (messageOf rateLimitedOnceWorld insertA) =
      .ok "projects/p/messages/1" ∧
    relayLoop rateLimitedOnceWorld (changes [insertEvent insertA]) RelayState.init =
      (.exited 1, { clientCalls := 1, sent := [messageOf rateLimitedOnceWorld insertA],
                    stdout := [] }) := by
  refine ⟨rfl, rfl, rfl⟩

/-- C4 as amended. For every event for which the relay's call of
`client.Send` returns a retryable failure, whatever a second call would
return, the relay has made exactly one call of `client.Send` for that event
and the process then exits with status 1: the relay does not call
`client.Send` again. Requests the client library repeats inside one call of
`client.Send` are not counted and not spoken of. -/
theorem retryable_failure_one_send_then_exit (w : World) (pre post : List NextResult)
    (change : BDoc) (s1 : RelayState) (p : NotificationPayload) (err : SendError)
    (hpre : relayLoop w pre RelayState.init = (.waiting, s1))
    (hdec : decodeChange change = .ok p)
    (hcli : w.messaging s1.clientCalls = .ok ())
    (hsend : w.send s1.sent.length (buildMessage w p) = .error err)
    (hcls : err.cls = .retryable) :
    (sendToToken w s1 p).1 = .exited 1 ∧
    (sendToToken w s1 p).2.sent.length = s1.sent.length + 1 ∧
    (relayLoop w (pre ++ .event change :: post) RelayState.init).1 = .exited 1 ∧
    (relayLoop w (pre ++ .event change :: post) RelayState.init).2.sent.length =
      s1.sent.length + 1 := by
  have _ := hcls
  rw [relayLoop_reaches_send_error w pre post change s1 p err hpre hdec hcli hsend,
    sendToToken_send_error w s1 p err hcli hsend]
  simp

/-- C4 as amended, at the feed A, B with a provider rate limited once. -/
theorem retryable_failure_one_send_then_exit_witness :
    (sendToToken rateLimitedOnceWorld RelayState.init { title := "A", content := "1" }).1
      = .exited 1 ∧
    (sendToToken rateLimitedOnceWorld RelayState.init { title := "A", content := "1" }).2.sent.length
      = RelayState.init.sent.length + 1 ∧
    (relayLoop rateLimitedOnceWorld
      ([] ++ .event (insertEvent insertA) :: [.event (insertEvent insertB)]) RelayState.init).1
      = .exited 1 ∧
    (relayLoop rateLimitedOnceWorld
      ([] ++ .event (insertEvent insertA) :: [.event (insertEvent insertB)])
      RelayState.init).2.sent.length = RelayState.init.sent.length + 1 :=
  retryable_failure_one_send_then_exit rateLimitedOnceWorld [] [.event (insertEvent insertB)]
    (insertEvent insertA) RelayState.init { title := "A", content := "1" }
    { cls := .retryable, text := "quota exceeded" } rfl rfl rfl rfl rfl

/-- C5. For every event whose provider send fails with a permanent failure,
exactly one send call is made for that event: the calls made by the relay are
those made up to that event followed by this single call, whatever the feed
holds afterwards. -/
theorem permanent_failure_exactly_one_send (w : World) (pre post : List NextResult)
    (change : BDoc) (s1 : RelayState) (p : NotificationPayload) (err : SendError)
    (hpre : relayLoop w pre RelayState.init = (.waiting, s1))
    (hdec : decodeChange change = .ok p)
    (hcli : w.messaging s1.clientCalls = .ok ())
    (hsend : w.send s1.sent.length (buildMessage w p) = .error err)
    (hcls : err.cls = .permanent) :
    (sendToToken w s1 p).2.sent = s1.sent ++ [buildMessage w p] ∧
    (relayLoop w (pre ++ .event change :: post) RelayState.init).2.sent =
      (relayLoop w pre RelayState.init).2.sent ++ [buildMessage w p] := by
  have _ := hcls
  rw [relayLoop_reaches_send_error w pre post change s1 p err hpre hdec hcli hsend,
    sendToToken_send_error w s1 p err hcli hsend, hpre]
  simp

/-- C5 at the feed A, B with a provider that rejects every send permanently. -/
theorem permanent_failure_exactly_one_send_witness :
    (sendToToken rejectingWorld RelayState.init { title := "A", content := "1" }).2.sent =
      RelayState.init.sent ++ [buildMessage rejectingWorld { title := "A", content := "1" }] ∧
    (relayLoop rejectingWorld
      ([] ++ .event (insertEvent insertA) :: [.event (insertEvent insertB)])
      RelayState.init).2.sent =
      (relayLoop rejectingWorld [] RelayState.init).2.sent ++
        [buildMessage rejectingWorld { title := "A", content := "1" }] :=
  permanent_failure_exactly_one_send rejectingWorld [] [.event (insertEvent insertB)]
    (insertEvent insertA) RelayState.init { title := "A", content := "1" }
    { cls := .permanent, text := "invalid registration token" } rfl rfl rfl rfl rfl

/-- C8, refuted: the feed delivers A, then `Next` returns false, then B would
follow; the relay loop has ended after A and B is never dispatched. -/
theorem closed_feed_stops_relay :
    relayLoop okWorld [.event (insertEvent insertA), .closed, .event (insertEvent insertB)]
        RelayState.init =
      (.finished, { clientCalls := 1, sent := [messageOf okWorld insertA],
                    stdout := ["Successfully sent message: projects/p/messages/1"] }) := by
  rfl

/-- C8 as amended. When `Next` returns false (transport error or end of
stream) the relay loop ends in the state it had reached: the subscription is
not opened again and nothing the feed produces afterwards is decoded or
dispatched; the process is not ended by it. -/
theorem relay_ends_when_feed_closes (w : World) (pre post : List NextResult) (s1 : RelayState)
    (hpre : relayLoop w pre RelayState.init = (.waiting, s1)) :
    relayLoop w (pre ++ .closed :: post) RelayState.init = (.finished, s1) := by
  rw [relayLoop_append_waiting w pre _ _ s1 hpre]
  simp [relayLoop]

/-- C8 as amended, at the feed A, closed, B. -/
theorem relay_ends_when_feed_closes_witness :
    relayLoop okWorld ([.event (insertEvent insertA)] ++ .closed :: [.event (insertEvent insertB)])
        RelayState.init =
      (.finished, { clientCalls := 1, sent := [messageOf okWorld insertA],
                    stdout := ["Successfully sent message: projects/p/messages/1"] }) :=
  relay_ends_when_feed_closes okWorld [.event (insertEvent insertA)]
    [.event (insertEvent insertB)] _ rfl



/-- C6. The handler answers with status 200 exactly when the body parses and
the insert succeeds, the body then being status 200 with the insert result
and the inserted record carrying the title and content of the request; on a
parse error it answers 400 with the error text and attempts no insert; on an
insert error it answers 400 with the error text. -/
theorem addHandler_contract (h : Ingestion) (req : Request) :
    ((addHandler h req).response.status = 200 ↔
      ∃ input r, h.bodyParser req = .ok input ∧
        h.insertOne (newNotification h.newObjectID input) = .ok r) ∧
    ((∃ input r, h.bodyParser req = .ok input ∧
        h.insertOne { id := h.newObjectID, title := input.title, content := input.content }
          = .ok r ∧
        addHandler h req =
          { response := { status := 200, body := { status := 200, data := .result r } },
            inserts := [{ id := h.newObjectID, title := input.title,
                          content := input.content }] }) ∨
     (∃ err, h.bodyParser req = .error err ∧
        addHandler h req =
          { response := { status := 400, body := { status := 400, data := .message err } },
            inserts := [] }) ∨
     (∃ input err, h.bodyParser req = .ok input ∧
        h.insertOne { id := h.newObjectID, title := input.title, content := input.content }
          = .error err ∧
        addHandler h req =
          { response := { status := 400, body := { status := 400, data := .message err } },
            inserts := [{ id := h.newObjectID, title := input.title,
                          content := input.content }] })) := by
  cases hp : h.bodyParser req with
  | error err =>
    refine ⟨?_, Or.inr (Or.inl ⟨err, rfl, ?_⟩)⟩
    · simp [addHandler, hp]
    · simp [addHandler, hp]
  | ok input =>
    cases hi : h.insertOne (newNotification h.newObjectID input) with
    | error err =>
      refine ⟨?_, Or.inr (Or.inr ⟨input, err, rfl, hi, ?_⟩)⟩
      · simp [addHandler, hp, hi]
      · simp only [newNotification] at hi
        simp [addHandler, hp, hi, newNotification]
    | ok r =>
      refine ⟨?_, Or.inl ⟨input, r, rfl, hi, ?_⟩⟩
      · simp [addHandler, hp, hi]
      · simp only [newNotification] at hi
        simp [addHandler, hp, hi, newNotification]

/-- A start of the program looks at the collection only through `Watch` with
the empty pipeline and no resume position. -/
theorem startRelay_congr (w : World) (coll coll2 : Collection)
    (h : coll.watch [] { resumeAfter := none } = coll2.watch [] { resumeAfter := none }) :
    startRelay w coll = startRelay w coll2 := by
  simp [startRelay, h]

/-- C9, refuted: the log holds the inserts A, B, C. The first lifetime opens
its stream on the empty log and is stopped after A, the change at position 0.
B is logged while the relay is down. The restarted relay opens its stream when
the log holds A and B: a stream resumed after position 0 would carry B and C,
but the relay dispatches C only, so B is dispatched in neither lifetime. -/
theorem restart_loses_inserts_made_while_down :
    (startRelay okWorld
      (collectionAt [insertEvent insertA, insertEvent insertB, insertEvent insertC] 0 1)).sent =
      [messageOf okWorld insertA] ∧
    (collectionAt [insertEvent insertA, insertEvent insertB, insertEvent insertC] 2 5).watch []
        { resumeAfter := some 0 } = .ok (changes [insertEvent insertB, insertEvent insertC]) ∧
    (startRelay okWorld
      (collectionAt [insertEvent insertA, insertEvent insertB, insertEvent insertC] 2 5)).sent =
      [messageOf okWorld insertC] ∧
    messageOf okWorld insertB ∉
      (startRelay okWorld
        (collectionAt [insertEvent insertA, insertEvent insertB, insertEvent insertC] 2 5)).sent := by
  refine ⟨rfl, rfl, rfl, ?_⟩
  decide

/-- C9 as amended. The relay keeps no resume position: a start of the program
opens the change stream with no resume position, whatever was processed
before, so two collections that give the same stream for such a call are
treated alike even if they differ on every resume position. Against a server
whose stream without resume position carries the changes logged after it was
opened, for every log of insert events of handler-made records, every opening
point and every number of changes `Next` delivers before the process stops,
the start dispatches, when every send succeeds, exactly the delivered changes,
in order; these are what follows any earlier position `p` in the log minus
the first `openedAt - (p + 1)` changes, the ones logged between that position
and the opening, which are therefore not dispatched. -/
theorem start_sends_exactly_the_changes_after_open (w : World) (ins : List Inserted)
    (openedAt consumed : Nat)
    (hok : ∀ k e, ((ins.drop openedAt).take consumed)[k]? = some e →
      sendSucceeds w k (messageOf w e) = true) :
    (∀ other : Collection,
      other.watch [] { resumeAfter := none } =
        (collectionAt (ins.map insertEvent) openedAt consumed).watch [] { resumeAfter := none } →
      startRelay w other =
        startRelay w (collectionAt (ins.map insertEvent) openedAt consumed)) ∧
    (∃ state, startRelay w (collectionAt (ins.map insertEvent) openedAt consumed) =
        .relay .waiting state ∧
      state.sent = ((ins.drop openedAt).take consumed).map (messageOf w)) ∧
    (∀ p, p + 1 ≤ openedAt →
      (startRelay w (collectionAt (ins.map insertEvent) openedAt consumed)).sent =
        (((ins.drop (p + 1)).drop (openedAt - (p + 1))).take consumed).map (messageOf w)) := by
  have h := relayLoop_inserts w ((ins.drop openedAt).take consumed) RelayState.init (by
    intro k e hk
    have := (sendSucceeds_iff w k (messageOf w e)).1 (hok k e hk)
    simpa [RelayState.init] using this)
  have hfeed : (collectionAt (ins.map insertEvent) openedAt consumed).watch []
      { resumeAfter := none } =
      .ok (changes (((ins.drop openedAt).take consumed).map insertEvent)) := by
    simp [collectionAt, List.map_take, List.map_drop]
  have hstart : startRelay w (collectionAt (ins.map insertEvent) openedAt consumed) =
      .relay .waiting
        (relayLoop w (changes (((ins.drop openedAt).take consumed).map insertEvent))
          RelayState.init).2 := by
    simp only [startRelay, hfeed]
    rw [← h.1]
  have hsent : (relayLoop w (changes (((ins.drop openedAt).take consumed).map insertEvent))
      RelayState.init).2.sent = ((ins.drop openedAt).take consumed).map (messageOf w) := by
    rw [h.2.1]; simp [RelayState.init]
  refine ⟨fun other ho => startRelay_congr w other _ ho, ⟨_, hstart, hsent⟩, ?_⟩
  intro p hp
  rw [hstart]
  simp only [StartResult.sent, hsent, List.drop_drop]
  have : openedAt - (p + 1) + (p + 1) = openedAt := by omega
  first
    | rw [this]
    | (have h2 : p + 1 + (openedAt - (p + 1)) = openedAt := by omega
       rw [h2])

/-- C9 as amended, at the log A, B, C with the stream opened after B and the
earlier position 0. -/
theorem start_sends_exactly_the_changes_after_open_witness :
    (∃ state, startRelay okWorld
        (collectionAt ([insertA, insertB, insertC].map insertEvent) 2 5) =
        .relay .waiting state ∧
      state.sent = (([insertA, insertB, insertC].drop 2).take 5).map (messageOf okWorld)) ∧
    (startRelay okWorld (collectionAt ([insertA, insertB, insertC].map insertEvent) 2 5)).sent =
      ((([insertA, insertB, insertC].drop (0 + 1)).drop (2 - (0 + 1))).take 5).map
        (messageOf okWorld) :=
  have h := start_sends_exactly_the_changes_after_open okWorld [insertA, insertB, insertC] 2 5
    (by intro k e _; rfl)
  ⟨h.2.1, h.2.2 0 (by decide)⟩

/-- C10. For every request that parses to a title and a content, the record
the handler builds and hands to `InsertOne`, once stored and reported back as
the full document of an insert event, is decoded by the relay to the payload
with that same title and that same content. -/
theorem stored_record_decodes_to_request (h : Ingestion) (req : Request)
    (input : NotificationPayload) (m : ChangeMeta) (autoID : ObjectID)
    (hparse : h.bodyParser req = .ok input) :
    (addHandler h req).inserts =
      [{ id := h.newObjectID, title := input.title, content := input.content }] ∧
    ∀ n ∈ (addHandler h req).inserts,
      decodeChange (changeEvent m "insert" (some (storedDocument autoID n))) =
        .ok { title := input.title, content := input.content } := by
  have hins : (addHandler h req).inserts =
      [{ id := h.newObjectID, title := input.title, content := input.content }] := by
    cases hi : h.insertOne (newNotification h.newObjectID input) with
    | error err =>
      simp only [newNotification] at hi
      simp [addHandler, hparse, hi, newNotification]
    | ok r =>
      simp only [newNotification] at hi
      simp [addHandler, hparse, hi, newNotification]
  refine ⟨hins, ?_⟩
  intro n hn
  rw [hins] at hn
  simp only [List.mem_singleton] at hn
  subst hn
  simp [decodeChange_changeEvent_some, unmarshalNotif_storedDocument]

/-- C10 at the request that parses to title A, content 1. -/
theorem stored_record_decodes_to_request_witness :
    (addHandler okIngestion { contentType := "application/json", body := "" }).inserts =
      [{ id := okIngestion.newObjectID, title := "A", content := "1" }] ∧
    ∀ n ∈ (addHandler okIngestion { contentType := "application/json", body := "" }).inserts,
      decodeChange (changeEvent (sampleMeta 1) "insert"
        (some (storedDocument { hex := "65a000000000000000000001" } n))) =
        .ok { title := "A", content := "1" } :=
  stored_record_decodes_to_request okIngestion { contentType := "application/json", body := "" }
    { title := "A", content := "1" } (sampleMeta 1) { hex := "65a000000000000000000001" } rfl

end ChangeStreamFCM
